import Mathlib

/-!
Verification of the OVN load-balancer reconciliation driver
(`neutron_lbaas/drivers/ovn/driver.py` and
`neutron_lbaas/drivers/ovn/driver_octavia.py`).

Strings are modelled as lists of characters (`Str`), matching Python string
semantics where needed: `str.split(',')` on an empty string yields `['']`,
truthiness of a string is non-emptiness, `','.join` interleaves commas.
-/

/-- Python strings are modelled as lists of characters. -/
abbrev Str := List Char

/-- Python `str(n)` for a non-negative integer `n` (decimal digits). -/
def natToStr (n : Nat) : Str := Nat.toDigits 10 n

/-- The logical-switch name derived from a network id: `"neutron-" + network_id`
(`driver.py` lines 160, 186, 236, 280). -/
def segName (network_id : Str) : Str := "neutron-".toList ++ network_id

/-- `constants.PROTOCOL_TCP`. -/
def PROTOCOL_TCP : Str := "TCP".toList

/-- `self.ovn_native_protocols = [constants.PROTOCOL_TCP]` (`driver.py` line 74). -/
def ovn_native_protocols : List Str := [PROTOCOL_TCP]

/-- Python `s.split(',')`: splits on every comma; the empty string yields `[""]`. -/
def splitOnComma : Str → List Str
  | [] => [[]]
  | c :: cs =>
    if c = ',' then [] :: splitOnComma cs
    else
      match splitOnComma cs with
      | [] => [[c]]
      | w :: ws => (c :: w) :: ws

/-- Python `','.join(ips)`: the encoding of an endpoint list into the store's
scalar `vips` field value (performed by the store client on `lb_add`). -/
def encodeIps : List Str → Str
  | [] => []
  | [x] => x
  | x :: xs => x ++ ',' :: encodeIps xs

/-- The guarded decode used by `MemberManager.create` (`driver.py` lines
221-225): `if vip_listener_ips: split(',') else []`.  A Python string is
truthy iff non-empty. -/
def decodeVipsField (field : Str) : List Str :=
  if field = [] then [] else splitOnComma field

/-- A `Load_Balancer` row of the OVN northbound store, as this driver reads and
writes it: a `name` and the `vips` map from a VIP socket string to the encoded
endpoint-set string.  Rows are identified by their name throughout the model
(the driver only ever looks rows up by name; OVSDB uuids are not modelled). -/
structure OvnLB where
  name : Str
  vips : List (Str × Str)
deriving DecidableEq

/-- The slice of northbound-store state this driver touches: the
`Load_Balancer` table and, for each logical switch (named segment), which load
balancers are attached to it (`ls_lb_add` / `ls_lb_del`), as pairs
`(switch name, load-balancer name)`. -/
structure NBState where
  lbs : List OvnLB
  attachments : List (Str × Str)
deriving DecidableEq

/-- Python dict access `vips[vip]` as a first-match association lookup
(`none` models a raised `KeyError`). -/
def lookupVip : List (Str × Str) → Str → Option Str
  | [], _ => none
  | (k, v) :: rest, key => if k = key then some v else lookupVip rest key

/-- Python dict update `vips[vip] = value`: replace the entry for `vip`
wholesale, preserving every other entry; append it if absent. -/
def setVip : List (Str × Str) → Str → Str → List (Str × Str)
  | [], key, v => [(key, v)]
  | (k, w) :: rest, key, v =>
    if k = key then (key, v) :: rest else (k, w) :: setVip rest key v

/-- `OVNDriver.find_ovn_lb` (`driver.py` lines 86-92): `db_find` by
name-equality, then `ovn_lb[0] if len(ovn_lb) == 1 else None`. -/
def findOvnLb (lbs : List OvnLB) (listener_id : Str) : Option OvnLB :=
  match lbs.filter (fun lb => decide (lb.name = listener_id)) with
  | [lb] => some lb
  | _ => none

/-- The store operations the two drivers issue, in the order they issue them.
`dbFind` and `lsGet` are reads; the rest are writes. -/
inductive StoreOp where
  | dbFind (name : Str)
  | lsGet (ls : Str)
  | upsertVip (lbName : Str) (vip : Str) (ips : List Str)
  | lsLbAdd (ls : Str) (lbName : Str)
  | lsLbDel (ls : Str) (lbName : Str)
  | lbDel (lbName : Str)
deriving DecidableEq

/-- The completion signal a handler delivers back to the host dispatcher.
`silent` records a return without any completion call; `delegated` records a
call to the base (fallback) implementation. -/
inductive Completion where
  | success (deleted : Bool)
  | failed
  | silent
  | delegated
deriving DecidableEq

/-- The record-level effect of `lb_add(name, vip, ips, may_exist=True)` on an
existing row: replace the `vips` entry for `vip` with the encoded ips. -/
def upsertVipRecord (lb : OvnLB) (vip : Str) (ips : List Str) : OvnLB :=
  { lb with vips := setVip lb.vips vip (encodeIps ips) }

/-- Row-wise update applied by `upsertVip` to the rows matching `name`. -/
def upsertRow (name vip : Str) (ips : List Str) (lb : OvnLB) : OvnLB :=
  if lb.name = name then upsertVipRecord lb vip ips else lb

/-- Modelled from the spec: the store-side semantics of the operations of
§4.4 (`upsertVip` is an idempotent create-or-update replacing one `vips`
entry wholesale and preserving the others; `attachSegment`/`detachSegment`
have `may_exist`/`if_exists` semantics).  The store client itself
(`ovsdbapp`) is an external collaborator, out of scope of the repository. -/
def applyOp (st : NBState) : StoreOp → NBState
  | .dbFind _ => st
  | .lsGet _ => st
  | .upsertVip name vip ips =>
    if st.lbs.any (fun lb => decide (lb.name = name)) then
      { st with lbs := st.lbs.map (upsertRow name vip ips) }
    else
      { st with lbs := st.lbs ++ [⟨name, [(vip, encodeIps ips)]⟩] }
  | .lsLbAdd ls lbName =>
    if (ls, lbName) ∈ st.attachments then st
    else { st with attachments := st.attachments ++ [(ls, lbName)] }
  | .lsLbDel ls lbName =>
    { st with attachments := st.attachments.filter (fun a => decide (a ≠ (ls, lbName))) }
  | .lbDel name =>
    { st with lbs := st.lbs.filter (fun lb => decide (lb.name ≠ name)) }

/-- Modelled from the spec: run a handler's operation list against the store. -/
def applyOps (st : NBState) (ops : List StoreOp) : NBState :=
  List.foldl applyOp st ops

/-- The raw `vips` field stored for socket `vip` on the record named `name`
(observed through `find_ovn_lb`). -/
def storedField (st : NBState) (name vip : Str) : Option Str :=
  match findOvnLb st.lbs name with
  | some lb => lookupVip lb.vips vip
  | none => none

/-- The decoded endpoint sequence stored for socket `vip` on the record named
`name` (empty for an absent record, key, or field). -/
def storedEndpoints (st : NBState) (name vip : Str) : List Str :=
  match storedField st name vip with
  | some f => decodeVipsField f
  | none => []


/-- The load-balancer domain snapshot fields this driver reads. -/
structure LoadBalancer where
  vip_address : Str
  vip_subnet_id : Str
deriving DecidableEq

/-- The listener domain snapshot fields this driver reads. -/
structure Listener where
  id : Str
  protocol : Str
  protocol_port : Nat
  loadbalancer : LoadBalancer
deriving DecidableEq

/-- The member domain snapshot fields this driver reads. -/
structure Member where
  id : Str
  address : Str
  protocol_port : Nat
  subnet_id : Str
deriving DecidableEq

/-- The pool domain snapshot fields this driver reads (`member.pool` is passed
alongside the member). -/
structure Pool where
  protocol : Str
  listener : Listener
  loadbalancer : LoadBalancer
  members : List Member
deriving DecidableEq

/-- `vip = listener.loadbalancer.vip_address + ':' + str(listener.protocol_port)`
(`driver.py` lines 150-151). -/
def listenerVip (listener : Listener) : Str :=
  listener.loadbalancer.vip_address ++ ':' :: natToStr listener.protocol_port

/-- `vip = member.pool.loadbalancer.vip_address + ':' + str(member.pool.listener.protocol_port)`
(`driver.py` lines 209-210, 255-256). -/
def poolVip (pool : Pool) : Str :=
  pool.loadbalancer.vip_address ++ ':' :: natToStr pool.listener.protocol_port

/-- `ip = member.address + ':' + str(member.protocol_port)`
(`driver.py` lines 212, 258). -/
def memberIp (member : Member) : Str :=
  member.address ++ ':' :: natToStr member.protocol_port

/-- `MemberManager._get_s_ids_of_other_members` (`driver.py` lines 198-199):
`[m.subnet_id for m in member.pool.members if m.id != member.id]`. -/
def sIdsOfOtherMembers (pool : Pool) (member : Member) : List Str :=
  (pool.members.filter (fun m => decide (m.id ≠ member.id))).map (fun m => m.subnet_id)

/-- Python `list.remove(x)`: delete the first occurrence (always guarded by a
membership test in this driver). -/
def removeFirst : List Str → Str → List Str
  | [], _ => []
  | x :: xs, y => if x = y then xs else x :: removeFirst xs y

/-- `ListenerManager.create` of `driver.py` (lines 145-165).  `getNetwork`
models the external `get_subnet(...)['network_id']` inventory lookup.  The
result is the ordered list of store operations issued and the completion
reported; `none` would model an uncaught exception (this handler raises none). -/
def listenerCreate (getNetwork : Str → Str) (listener : Listener) :
    Option (List StoreOp × Completion) :=
  if listener.protocol ∉ ovn_native_protocols then
    some ([], .failed)
  else
    let vip := listenerVip listener
    let ls_name := segName (getNetwork listener.loadbalancer.vip_subnet_id)
    some ([.upsertVip listener.id vip [], .lsGet ls_name, .lsLbAdd ls_name listener.id],
      .success false)

/-- `ListenerManager.update` of `driver.py` (lines 167-171). -/
def listenerUpdate (listener : Listener) : Option (List StoreOp × Completion) :=
  if listener.protocol ∉ ovn_native_protocols then some ([], .failed)
  else some ([], .success false)

/-- `ListenerManager.delete` of `driver.py` (lines 173-193). -/
def listenerDelete (getNetwork : Str → Str) (st : NBState) (listener : Listener) :
    Option (List StoreOp × Completion) :=
  if listener.protocol ∉ ovn_native_protocols then
    some ([], .success true)
  else
    match findOvnLb st.lbs listener.id with
    | none => some ([.dbFind listener.id], .failed)
    | some ovn_lb =>
      let ls_name := segName (getNetwork listener.loadbalancer.vip_subnet_id)
      some ([.dbFind listener.id, .lsGet ls_name, .lsLbDel ls_name ovn_lb.name,
             .lbDel ovn_lb.name], .success true)

/-- `PoolManager.create` of `driver.py` (lines 115-119).  The guard tests
`pool.listener.protocol`; on the non-native branch the call
`failed_completion(context, listener)` references an undefined name
`listener` and raises `NameError`, modelled as `none`. -/
def poolCreate (pool : Pool) : Option (List StoreOp × Completion) :=
  if pool.listener.protocol ∉ ovn_native_protocols then none
  else some ([], .success false)

/-- `PoolManager.update` of `driver.py` (lines 121-125): same undefined-name
crash on the non-native branch as `poolCreate`. -/
def poolUpdate (pool : Pool) : Option (List StoreOp × Completion) :=
  if pool.listener.protocol ∉ ovn_native_protocols then none
  else some ([], .success false)

/-- `PoolManager.delete` of `driver.py` (lines 127-128): unconditional
successful completion, no protocol check, no store operation. -/
def poolDelete (_pool : Pool) : Option (List StoreOp × Completion) :=
  some ([], .success true)

/-- `MemberManager.create` of `driver.py` (lines 201-242).  `none` models the
`KeyError` raised by `ovn_lb.vips[vip]` when the socket key is absent. -/
def memberCreate (getNetwork : Str → Str) (st : NBState) (pool : Pool)
    (member : Member) : Option (List StoreOp × Completion) :=
  if pool.protocol ∉ ovn_native_protocols then
    some ([], .failed)
  else
    let vip := poolVip pool
    let ip := memberIp member
    match findOvnLb st.lbs pool.listener.id with
    | none => some ([.dbFind pool.listener.id], .failed)
    | some ovn_lb =>
      match lookupVip ovn_lb.vips vip with
      | none => none
      | some field =>
        let vip_listener_ips := decodeVipsField field ++ [ip]
        let base := [StoreOp.dbFind pool.listener.id,
                     StoreOp.upsertVip ovn_lb.name vip vip_listener_ips]
        if member.subnet_id ∈ sIdsOfOtherMembers pool member then
          some (base, .success false)
        else
          let ls_name := segName (getNetwork member.subnet_id)
          some (base ++ [.lsGet ls_name, .lsLbAdd ls_name ovn_lb.name], .success false)

/-- `MemberManager.update` of `driver.py` (lines 244-248). -/
def memberUpdate (pool : Pool) (_member : Member) : Option (List StoreOp × Completion) :=
  if pool.protocol ∉ ovn_native_protocols then some ([], .failed)
  else some ([], .success false)

/-- `MemberManager.delete` of `driver.py` (lines 250-287).  The decode here is
the unguarded `ovn_lb.vips[vip].split(',')`; a missing record and a missing
endpoint both return silently (the source comments say to raise instead);
`none` models the `KeyError` on a missing socket key. -/
def memberDelete (getNetwork : Str → Str) (st : NBState) (pool : Pool)
    (member : Member) : Option (List StoreOp × Completion) :=
  if pool.protocol ∉ ovn_native_protocols then
    some ([], .success true)
  else
    let vip := poolVip pool
    let ip := memberIp member
    match findOvnLb st.lbs pool.listener.id with
    | none => some ([.dbFind pool.listener.id], .silent)
    | some ovn_lb =>
      match lookupVip ovn_lb.vips vip with
      | none => none
      | some field =>
        let vip_listener_ips := splitOnComma field
        if ip ∉ vip_listener_ips then
          some ([.dbFind pool.listener.id], .silent)
        else
          let new_ips := removeFirst vip_listener_ips ip
          let base := [StoreOp.dbFind pool.listener.id,
                       StoreOp.upsertVip ovn_lb.name vip new_ips]
          if member.subnet_id ∈ sIdsOfOtherMembers pool member then
            some (base, .success true)
          else
            let ls_name := segName (getNetwork member.subnet_id)
            some (base ++ [.lsGet ls_name, .lsLbDel ls_name ovn_lb.name], .success true)

/-- `ListenerManager.create` of `driver_octavia.py` (lines 79-90).  Non-native
protocols delegate to the base implementation with no store operation.  The
native path computes `vip += ':' + listener.protocol_port`, concatenating an
integer port into a string, which raises `TypeError` before any store
operation: modelled as `none`. -/
def octListenerCreate (listener : Listener) : Option (List StoreOp × Completion) :=
  if listener.protocol ∉ ovn_native_protocols then some ([], .delegated)
  else none

/-- `ListenerManager.update` of `driver_octavia.py` (lines 92-97): delegate for
non-native, otherwise fall through with no store operation and no completion. -/
def octListenerUpdate (listener : Listener) : Option (List StoreOp × Completion) :=
  if listener.protocol ∉ ovn_native_protocols then some ([], .delegated)
  else some ([], .silent)

/-- `ListenerManager.delete` of `driver_octavia.py` (lines 99-111).  The native
path calls `find_ovn_lb`, whose body dereferences `self.driver` on the driver
object itself (`driver_octavia.py` line 72), an attribute that variant's
`OVNDriver` never defines: `AttributeError` before any store operation,
modelled as `none`. -/
def octListenerDelete (listener : Listener) : Option (List StoreOp × Completion) :=
  if listener.protocol ∉ ovn_native_protocols then some ([], .delegated)
  else none

/-- `PoolManager.create` of `driver_octavia.py` (lines 115-119): delegate for
non-native, otherwise an empty body. -/
def octPoolCreate (pool : Pool) : Option (List StoreOp × Completion) :=
  if pool.protocol ∉ ovn_native_protocols then some ([], .delegated)
  else some ([], .silent)

/-- `PoolManager.update` of `driver_octavia.py` (lines 121-125). -/
def octPoolUpdate (pool : Pool) : Option (List StoreOp × Completion) :=
  if pool.protocol ∉ ovn_native_protocols then some ([], .delegated)
  else some ([], .silent)

/-- `PoolManager.delete` of `driver_octavia.py` (lines 127-131). -/
def octPoolDelete (pool : Pool) : Option (List StoreOp × Completion) :=
  if pool.protocol ∉ ovn_native_protocols then some ([], .delegated)
  else some ([], .silent)

/-- `MemberManager.create` of `driver_octavia.py` (lines 136-172).  The native
path computes `vip += ':' + member.pool.protocol_port` (line 146): the pool
object carries no `protocol_port` attribute and the concatenation mixes a
string with a number, so the handler raises before its store lookup (whose
`find_ovn_lb` would itself fail on the undefined `self.driver` attribute).
Modelled as `none`: no store operation is ever issued on the native path. -/
def octMemberCreate (pool : Pool) (_member : Member) : Option (List StoreOp × Completion) :=
  if pool.protocol ∉ ovn_native_protocols then some ([], .delegated)
  else none

/-- `MemberManager.update` of `driver_octavia.py` (lines 174-178). -/
def octMemberUpdate (pool : Pool) (_member : Member) : Option (List StoreOp × Completion) :=
  if pool.protocol ∉ ovn_native_protocols then some ([], .delegated)
  else some ([], .silent)

/-- `MemberManager.delete` of `driver_octavia.py` (lines 180-206).  The native
path reads `member.pool.lprotocol_port` (line 187), a misspelled attribute that
no pool carries: `AttributeError` before any store operation, modelled as
`none`. -/
def octMemberDelete (pool : Pool) (_member : Member) : Option (List StoreOp × Completion) :=
  if pool.protocol ∉ ovn_native_protocols then some ([], .delegated)
  else none

/-- Concrete string: a VIP address. -/
def sAddr : Str := "10.0.0.5".toList

/-- Concrete string: the load balancer's VIP subnet id. -/
def sVipSubnet : Str := "vip-subnet".toList

/-- Concrete string: a listener id. -/
def sL1 : Str := "L1".toList

/-- Concrete string: a non-native protocol. -/
def sUDP : Str := "UDP".toList

/-- Concrete string: member id `m1`. -/
def sM1 : Str := "m1".toList

/-- Concrete string: member id `m2`. -/
def sM2 : Str := "m2".toList

/-- Concrete string: member address `10.0.1.10`. -/
def sAddrM1 : Str := "10.0.1.10".toList

/-- Concrete string: member address `10.0.1.11`. -/
def sAddrM2 : Str := "10.0.1.11".toList

/-- Concrete string: subnet id `S1`. -/
def sS1 : Str := "S1".toList

/-- Concrete string: subnet id `S2`. -/
def sS2 : Str := "S2".toList

/-- Concrete string: network id `net1`. -/
def sNet1 : Str := "net1".toList

/-- Concrete string: the VIP socket `10.0.0.5:80`. -/
def sVipSock : Str := "10.0.0.5:80".toList

/-- Concrete string: the encoded endpoint set `10.0.1.10:8080`. -/
def sFieldM1 : Str := "10.0.1.10:8080".toList

/-- Concrete subnet-to-network resolution used by witnesses. -/
def netOf : Str → Str := fun _ => sNet1

/-- Concrete load balancer used by witnesses. -/
def lbA : LoadBalancer := { vip_address := sAddr, vip_subnet_id := sVipSubnet }

/-- Concrete native (TCP) listener `L1` on port 80. -/
def listenerL1 : Listener :=
  { id := sL1, protocol := PROTOCOL_TCP, protocol_port := 80, loadbalancer := lbA }

/-- Concrete non-native (UDP) listener. -/
def listenerUdp : Listener :=
  { id := sL1, protocol := sUDP, protocol_port := 53, loadbalancer := lbA }

/-- Concrete member `m1` on subnet `S1`. -/
def memberM1 : Member :=
  { id := sM1, address := sAddrM1, protocol_port := 8080, subnet_id := sS1 }

/-- Concrete member `m2` on subnet `S1`. -/
def memberM2 : Member :=
  { id := sM2, address := sAddrM2, protocol_port := 8080, subnet_id := sS1 }

/-- Concrete TCP pool containing only `m1`. -/
def poolP1 : Pool :=
  { protocol := PROTOCOL_TCP, listener := listenerL1, loadbalancer := lbA,
    members := [memberM1] }

/-- Concrete TCP pool containing `m1` and `m2` (siblings on the same subnet). -/
def poolP12 : Pool :=
  { protocol := PROTOCOL_TCP, listener := listenerL1, loadbalancer := lbA,
    members := [memberM1, memberM2] }

/-- Concrete UDP pool under the UDP listener. -/
def poolUdp : Pool :=
  { protocol := sUDP, listener := listenerUdp, loadbalancer := lbA,
    members := [memberM1] }

/-- Concrete store row for listener `L1` holding `m1`'s endpoint. -/
def lbRowL1 : OvnLB := { name := sL1, vips := [(sVipSock, sFieldM1)] }

/-- Concrete store row for listener `L1` with no `vips` entry. -/
def lbRowNoKey : OvnLB := { name := sL1, vips := [] }

/-- Store state holding exactly the row for `L1`. -/
def stOne : NBState := { lbs := [lbRowL1], attachments := [] }

/-- Empty store state. -/
def stEmpty : NBState := { lbs := [], attachments := [] }

/-- Store state whose `L1` row lacks the VIP socket key. -/
def stNoKey : NBState := { lbs := [lbRowNoKey], attachments := [] }

/-- Store state holding two rows named `L1` (violating lookup uniqueness). -/
def stDup : NBState := { lbs := [lbRowL1, lbRowL1], attachments := [] }

/-- Recognizer for segment-attach operations (`ls_lb_add`). -/
def isAttachOp : StoreOp → Bool
  | .lsLbAdd _ _ => true
  | _ => false

/-- Recognizer for segment-detach operations (`ls_lb_del`). -/
def isDetachOp : StoreOp → Bool
  | .lsLbDel _ _ => true
  | _ => false

/-- Recognizer for the operations that modify the `Load_Balancer` table. -/
def touchesLbs : StoreOp → Bool
  | .upsertVip _ _ _ => true
  | .lbDel _ => true
  | _ => false

/-- `splitOnComma` always yields at least one piece. -/
theorem splitOnComma_ne_nil (f : Str) : splitOnComma f ≠ [] := by
  induction f with
  | nil => simp [splitOnComma]
  | cons c cs ih =>
    simp only [splitOnComma]
    split
    · simp
    · cases h : splitOnComma cs with
      | nil => simp
      | cons w ws => simp

/-- No piece produced by `splitOnComma` contains a comma. -/
theorem splitOnComma_no_comma_mem (f : Str) : ∀ e ∈ splitOnComma f, ',' ∉ e := by
  induction f with
  | nil =>
    intro e he
    simp [splitOnComma] at he
    simp [he]
  | cons c cs ih =>
    intro e he
    simp only [splitOnComma] at he
    by_cases hc : c = ','
    · rw [if_pos hc] at he
      rcases List.mem_cons.mp he with h | h
      · simp [h]
      · exact ih e h
    · rw [if_neg hc] at he
      cases hsp : splitOnComma cs with
      | nil => exact absurd hsp (splitOnComma_ne_nil cs)
      | cons w ws =>
        rw [hsp] at he
        rcases List.mem_cons.mp he with h | h
        · subst h
          intro hmem
          rcases List.mem_cons.mp hmem with h2 | h2
          · exact hc h2.symm
          · exact ih w (by rw [hsp]; exact List.mem_cons_self w ws) h2
        · exact ih e (by rw [hsp]; exact List.mem_cons_of_mem w h)

/-- A comma-free string splits to the singleton of itself. -/
theorem splitOnComma_of_no_comma (x : Str) (hx : ',' ∉ x) : splitOnComma x = [x] := by
  induction x with
  | nil => rfl
  | cons c cs ih =>
    have hc : c ≠ ',' := fun h => hx (by rw [h]; exact List.mem_cons_self _ _)
    have hcs : ',' ∉ cs := fun h => hx (List.mem_cons_of_mem c h)
    simp only [splitOnComma, if_neg hc]
    rw [ih hcs]

/-- Splitting a comma-free chunk followed by a comma peels off the chunk. -/
theorem splitOnComma_append (x r : Str) (hx : ',' ∉ x) :
    splitOnComma (x ++ ',' :: r) = x :: splitOnComma r := by
  induction x with
  | nil => simp [splitOnComma]
  | cons c cs ih =>
    have hc : c ≠ ',' := fun h => hx (by rw [h]; exact List.mem_cons_self _ _)
    have hcs : ',' ∉ cs := fun h => hx (List.mem_cons_of_mem c h)
    simp only [List.cons_append, splitOnComma, if_neg hc, List.append_eq]
    rw [ih hcs]

/-- Splitting is a left inverse of joining for non-empty comma-free sequences. -/
theorem splitOnComma_encodeIps (l : List Str) (hne : l ≠ [])
    (hc : ∀ e ∈ l, ',' ∉ e) : splitOnComma (encodeIps l) = l := by
  induction l with
  | nil => exact absurd rfl hne
  | cons x t ih =>
    cases t with
    | nil => exact splitOnComma_of_no_comma x (hc x (List.mem_cons_self x []))
    | cons y t2 =>
      have hx : ',' ∉ x := hc x (List.mem_cons_self x (y :: t2))
      have : encodeIps (x :: y :: t2) = x ++ ',' :: encodeIps (y :: t2) := rfl
      rw [this, splitOnComma_append x _ hx]
      rw [ih (by simp) (fun e he => hc e (List.mem_cons_of_mem x he))]

/-- The join of a sequence that is neither empty nor the singleton empty
string is non-empty. -/
theorem encodeIps_ne_nil (l : List Str) (hne : l ≠ []) (hs : l ≠ [[]]) :
    encodeIps l ≠ [] := by
  cases l with
  | nil => exact absurd rfl hne
  | cons x t =>
    cases t with
    | nil =>
      intro h
      have hx : x = [] := h
      exact hs (by rw [hx])
    | cons y t2 =>
      intro h
      have : encodeIps (x :: y :: t2) = x ++ ',' :: encodeIps (y :: t2) := rfl
      rw [this] at h
      simp at h

/-- The guarded decode inverts the join on sequences of non-empty comma-free
endpoint strings (including the empty sequence). -/
theorem decodeVipsField_encodeIps (l : List Str)
    (h : ∀ e ∈ l, e ≠ [] ∧ ',' ∉ e) : decodeVipsField (encodeIps l) = l := by
  cases l with
  | nil => rfl
  | cons x t =>
    have hs : x :: t ≠ [[]] := by
      intro hh
      have hx : x = [] := (List.cons.inj hh).1
      exact (h x (List.mem_cons_self x t)).1 hx
    have hne : encodeIps (x :: t) ≠ [] := encodeIps_ne_nil _ (by simp) hs
    rw [decodeVipsField, if_neg hne]
    exact splitOnComma_encodeIps _ (by simp) (fun e he => (h e he).2)

/-- The guarded decode inverts the join after appending a non-empty comma-free
endpoint to a comma-free sequence. -/
theorem decodeVipsField_encodeIps_append (cur : List Str) (ip : Str)
    (hcur : ∀ e ∈ cur, ',' ∉ e) (hip : ',' ∉ ip) (hip2 : ip ≠ []) :
    decodeVipsField (encodeIps (cur ++ [ip])) = cur ++ [ip] := by
  have hs : cur ++ [ip] ≠ [[]] := by
    cases cur with
    | nil =>
      intro hh
      simp at hh
      exact hip2 hh
    | cons c t =>
      intro hh
      simp at hh
  have hne : encodeIps (cur ++ [ip]) ≠ [] := encodeIps_ne_nil _ (by simp) hs
  rw [decodeVipsField, if_neg hne]
  refine splitOnComma_encodeIps _ (by simp) ?_
  intro e he
  rcases List.mem_append.mp he with h | h
  · exact hcur e h
  · rw [List.mem_singleton.mp h]
    exact hip

/-- Updating a `vips` entry makes the updated value visible under its key. -/
theorem lookupVip_setVip_self (e : List (Str × Str)) (k v : Str) :
    lookupVip (setVip e k v) k = some v := by
  induction e with
  | nil => simp [setVip, lookupVip]
  | cons p rest ih =>
    obtain ⟨a, b⟩ := p
    by_cases h : a = k
    · simp [setVip, h, lookupVip]
    · simp [setVip, h, lookupVip, ih]

/-- Updating a `vips` entry leaves every other key's value untouched. -/
theorem lookupVip_setVip_other (e : List (Str × Str)) (k v k2 : Str) (h : k2 ≠ k) :
    lookupVip (setVip e k v) k2 = lookupVip e k2 := by
  have hk : k ≠ k2 := fun hh => h hh.symm
  induction e with
  | nil => simp [setVip, lookupVip, hk]
  | cons p rest ih =>
    obtain ⟨a, b⟩ := p
    by_cases ha : a = k
    · subst ha
      simp [setVip, lookupVip, hk]
    · by_cases ha2 : a = k2
      · simp [setVip, ha, lookupVip, ha2, h]
      · simp [setVip, ha, lookupVip, ha2, ih]

/-- A successful `find_ovn_lb` means the name-filter matched exactly one row. -/
theorem findOvnLb_filter_eq {lbs : List OvnLB} {n : Str} {lb : OvnLB}
    (h : findOvnLb lbs n = some lb) :
    lbs.filter (fun x => decide (x.name = n)) = [lb] := by
  unfold findOvnLb at h
  cases hf : lbs.filter (fun x => decide (x.name = n)) with
  | nil => rw [hf] at h; cases h
  | cons x t =>
    cases t with
    | nil =>
      rw [hf] at h
      have : x = lb := by
        have h2 : some x = some lb := h
        exact Option.some.inj h2
      rw [this]
    | cons y t2 => rw [hf] at h; cases h

/-- The row returned by `find_ovn_lb` carries the name it was looked up by. -/
theorem findOvnLb_name {lbs : List OvnLB} {n : Str} {lb : OvnLB}
    (h : findOvnLb lbs n = some lb) : lb.name = n := by
  have hf := findOvnLb_filter_eq h
  have hmem : lb ∈ lbs.filter (fun x => decide (x.name = n)) := by
    rw [hf]; exact List.mem_cons_self lb []
  have := List.of_mem_filter hmem
  exact of_decide_eq_true this

/-- The row returned by `find_ovn_lb` is a row of the table. -/
theorem findOvnLb_mem {lbs : List OvnLB} {n : Str} {lb : OvnLB}
    (h : findOvnLb lbs n = some lb) : lb ∈ lbs := by
  have hf := findOvnLb_filter_eq h
  exact List.mem_of_mem_filter (by rw [hf]; exact List.mem_cons_self lb [])

/-- `upsertRow` never changes a row's name. -/
theorem upsertRow_name (name vip : Str) (ips : List Str) (lb : OvnLB) :
    (upsertRow name vip ips lb).name = lb.name := by
  unfold upsertRow
  split
  · rfl
  · rfl

/-- After the `upsertVip` write, `find_ovn_lb` sees the updated row. -/
theorem findOvnLb_applyOp_upsert {st : NBState} {n : Str} {lb : OvnLB}
    (vip : Str) (ips : List Str) (h : findOvnLb st.lbs n = some lb) :
    findOvnLb (applyOp st (.upsertVip n vip ips)).lbs n =
      some (upsertVipRecord lb vip ips) := by
  have hf := findOvnLb_filter_eq h
  have hname := findOvnLb_name h
  have hmem := findOvnLb_mem h
  have hany : st.lbs.any (fun x => decide (x.name = n)) = true := by
    rw [List.any_eq_true]
    exact ⟨lb, hmem, by simp [hname]⟩
  have hlbs : (applyOp st (.upsertVip n vip ips)).lbs =
      st.lbs.map (upsertRow n vip ips) := by
    simp only [applyOp, hany, if_true]
  rw [hlbs]
  unfold findOvnLb
  have hcomp : (fun x : OvnLB => decide (x.name = n)) ∘ upsertRow n vip ips =
      (fun x : OvnLB => decide (x.name = n)) := by
    funext x
    simp [Function.comp, upsertRow_name]
  rw [List.filter_map, hcomp, hf]
  simp only [List.map_cons, List.map_nil]
  rw [upsertRow, if_pos hname]

/-- `db_find` leaves the `Load_Balancer` table unchanged. -/
theorem applyOp_dbFind_lbs (st : NBState) (n : Str) :
    (applyOp st (.dbFind n)).lbs = st.lbs := rfl

/-- `ls_get` leaves the `Load_Balancer` table unchanged. -/
theorem applyOp_lsGet_lbs (st : NBState) (s : Str) :
    (applyOp st (.lsGet s)).lbs = st.lbs := rfl

/-- `ls_lb_add` leaves the `Load_Balancer` table unchanged. -/
theorem applyOp_lsLbAdd_lbs (st : NBState) (ls n : Str) :
    (applyOp st (.lsLbAdd ls n)).lbs = st.lbs := by
  simp only [applyOp]
  split
  · rfl
  · rfl

/-- `ls_lb_del` leaves the `Load_Balancer` table unchanged. -/
theorem applyOp_lsLbDel_lbs (st : NBState) (ls n : Str) :
    (applyOp st (.lsLbDel ls n)).lbs = st.lbs := rfl

/-- Elements survive `removeFirst` only if they were in the original list. -/
theorem mem_removeFirst {l : List Str} {a e : Str} (h : e ∈ removeFirst l a) :
    e ∈ l := by
  induction l with
  | nil => simp [removeFirst] at h
  | cons x xs ih =>
    simp only [removeFirst] at h
    by_cases hx : x = a
    · rw [if_pos hx] at h
      exact List.mem_cons_of_mem x h
    · rw [if_neg hx] at h
      rcases List.mem_cons.mp h with h2 | h2
      · rw [h2]; exact List.mem_cons_self x xs
      · exact List.mem_cons_of_mem x (ih h2)

/-- No piece of the guarded decode contains a comma. -/
theorem decodeVipsField_no_comma_mem (f : Str) : ∀ e ∈ decodeVipsField f, ',' ∉ e := by
  unfold decodeVipsField
  split
  · simp
  · exact splitOnComma_no_comma_mem f

/-- `storedField` through a successful `find_ovn_lb`. -/
theorem storedField_of_find {st : NBState} {n : Str} {lb : OvnLB}
    (h : findOvnLb st.lbs n = some lb) (vip : Str) :
    storedField st n vip = lookupVip lb.vips vip := by
  unfold storedField
  rw [h]

/-- Operations not touching the `Load_Balancer` table preserve its rows. -/
theorem applyOps_lbs_of_no_touch (ops : List StoreOp) (st : NBState)
    (h : ∀ op ∈ ops, touchesLbs op = false) : (applyOps st ops).lbs = st.lbs := by
  induction ops generalizing st with
  | nil => rfl
  | cons op rest ih =>
    have hop := h op (List.mem_cons_self op rest)
    have hlbs : (applyOp st op).lbs = st.lbs := by
      cases op with
      | dbFind n => rfl
      | lsGet s => rfl
      | upsertVip n vip ips => simp [touchesLbs] at hop
      | lsLbAdd ls n => exact applyOp_lsLbAdd_lbs st ls n
      | lsLbDel ls n => rfl
      | lbDel n => simp [touchesLbs] at hop
    have : applyOps st (op :: rest) = applyOps (applyOp st op) rest := rfl
    rw [this, ih (applyOp st op) (fun o ho => h o (List.mem_cons_of_mem op ho)), hlbs]

/-- Membership in `_get_s_ids_of_other_members` spelt as the existence of a
sibling member on the same subnet. -/
theorem mem_sIdsOfOtherMembers (pool : Pool) (member : Member) :
    member.subnet_id ∈ sIdsOfOtherMembers pool member ↔
      ∃ m ∈ pool.members, m.id ≠ member.id ∧ m.subnet_id = member.subnet_id := by
  unfold sIdsOfOtherMembers
  simp only [List.mem_map, List.mem_filter, decide_eq_true_eq]
  constructor
  · rintro ⟨m, ⟨hm, hid⟩, hs⟩
    exact ⟨m, hm, hid, hs⟩
  · rintro ⟨m, hm, hid, hs⟩
    exact ⟨m, ⟨hm, hid⟩, hs⟩

/-- Unfolding of `MemberManager.create` (`driver.py`) on the native path with
the record found and the socket key present. -/
theorem memberCreate_eq (getNetwork : Str → Str) (st : NBState) (pool : Pool)
    (member : Member) (lb : OvnLB) (field : Str)
    (hp : pool.protocol ∈ ovn_native_protocols)
    (hf : findOvnLb st.lbs pool.listener.id = some lb)
    (hk : lookupVip lb.vips (poolVip pool) = some field) :
    memberCreate getNetwork st pool member =
      some ([StoreOp.dbFind pool.listener.id,
             StoreOp.upsertVip lb.name (poolVip pool)
               (decodeVipsField field ++ [memberIp member])] ++
            (if member.subnet_id ∈ sIdsOfOtherMembers pool member then []
             else [StoreOp.lsGet (segName (getNetwork member.subnet_id)),
                   StoreOp.lsLbAdd (segName (getNetwork member.subnet_id)) lb.name]),
            Completion.success false) := by
  simp only [memberCreate, if_neg (not_not_intro hp), hf, hk]
  by_cases hmem : member.subnet_id ∈ sIdsOfOtherMembers pool member
  · rw [if_pos hmem, if_pos hmem]
    simp
  · rw [if_neg hmem, if_neg hmem]

/-- Unfolding of `MemberManager.delete` (`driver.py`) on the native path with
the record found, the socket key present and the endpoint present. -/
theorem memberDelete_eq (getNetwork : Str → Str) (st : NBState) (pool : Pool)
    (member : Member) (lb : OvnLB) (field : Str)
    (hp : pool.protocol ∈ ovn_native_protocols)
    (hf : findOvnLb st.lbs pool.listener.id = some lb)
    (hk : lookupVip lb.vips (poolVip pool) = some field)
    (hip : memberIp member ∈ splitOnComma field) :
    memberDelete getNetwork st pool member =
      some ([StoreOp.dbFind pool.listener.id,
             StoreOp.upsertVip lb.name (poolVip pool)
               (removeFirst (splitOnComma field) (memberIp member))] ++
            (if member.subnet_id ∈ sIdsOfOtherMembers pool member then []
             else [StoreOp.lsGet (segName (getNetwork member.subnet_id)),
                   StoreOp.lsLbDel (segName (getNetwork member.subnet_id)) lb.name]),
            Completion.success true) := by
  simp only [memberDelete, if_neg (not_not_intro hp), hf, hk,
    if_neg (not_not_intro hip)]
  by_cases hmem : member.subnet_id ∈ sIdsOfOtherMembers pool member
  · rw [if_pos hmem, if_pos hmem]
    simp
  · rw [if_neg hmem, if_neg hmem]

/-- The stored field after `[db_find, upsert]` followed by operations that do
not touch the `Load_Balancer` table. -/
theorem storedField_after_upsert (st : NBState) (n vip : Str) (ips : List Str)
    (lb : OvnLB) (tail : List StoreOp)
    (hf : findOvnLb st.lbs n = some lb)
    (htail : ∀ op ∈ tail, touchesLbs op = false) (v2 : Str) :
    storedField
      (applyOps st ([StoreOp.dbFind n, StoreOp.upsertVip lb.name vip ips] ++ tail)) n v2 =
      lookupVip (setVip lb.vips vip (encodeIps ips)) v2 := by
  have hname := findOvnLb_name hf
  rw [hname]
  have h1 : applyOps st ([StoreOp.dbFind n, StoreOp.upsertVip n vip ips] ++ tail) =
      applyOps (applyOp st (.upsertVip n vip ips)) tail := rfl
  rw [h1]
  unfold storedField
  rw [applyOps_lbs_of_no_touch tail _ htail]
  rw [findOvnLb_applyOp_upsert vip ips hf]
  rfl

/-- C1: on a native-protocol member create the driver attaches the segment of
the member's subnet to the listener's forwarding record if and only if no
other member of the same pool resides on that subnet, and never detaches; on a
native-protocol member delete it detaches that segment if and only if no other
member of the pool remains on that subnet, and never attaches; when a sibling
member remains on the subnet, neither an attach nor a detach is issued. -/
theorem c1_member_segment_refcount (getNetwork : Str → Str) (st : NBState)
    (pool : Pool) (member : Member) (lb : OvnLB) (field : Str)
    (hp : pool.protocol ∈ ovn_native_protocols)
    (hf : findOvnLb st.lbs pool.listener.id = some lb)
    (hk : lookupVip lb.vips (poolVip pool) = some field) :
    (∃ ops, memberCreate getNetwork st pool member = some (ops, Completion.success false) ∧
      ops.filter isAttachOp =
        (if ∃ m ∈ pool.members, m.id ≠ member.id ∧ m.subnet_id = member.subnet_id then []
         else [StoreOp.lsLbAdd (segName (getNetwork member.subnet_id)) lb.name]) ∧
      ops.filter isDetachOp = []) ∧
    (memberIp member ∈ splitOnComma field →
      ∃ ops, memberDelete getNetwork st pool member = some (ops, Completion.success true) ∧
        ops.filter isDetachOp =
          (if ∃ m ∈ pool.members, m.id ≠ member.id ∧ m.subnet_id = member.subnet_id then []
           else [StoreOp.lsLbDel (segName (getNetwork member.subnet_id)) lb.name]) ∧
        ops.filter isAttachOp = []) := by
  have hcond : (∃ m ∈ pool.members, m.id ≠ member.id ∧ m.subnet_id = member.subnet_id) ↔
      member.subnet_id ∈ sIdsOfOtherMembers pool member :=
    (mem_sIdsOfOtherMembers pool member).symm
  constructor
  · refine ⟨_, memberCreate_eq getNetwork st pool member lb field hp hf hk, ?_, ?_⟩
    · by_cases hmem : member.subnet_id ∈ sIdsOfOtherMembers pool member
      · rw [if_pos hmem, if_pos (hcond.mpr hmem)]
        simp [isAttachOp]
      · rw [if_neg hmem, if_neg (fun hx => hmem (hcond.mp hx))]
        simp [isAttachOp]
    · by_cases hmem : member.subnet_id ∈ sIdsOfOtherMembers pool member
      · rw [if_pos hmem]
        simp [isDetachOp]
      · rw [if_neg hmem]
        simp [isDetachOp]
  · intro hip
    refine ⟨_, memberDelete_eq getNetwork st pool member lb field hp hf hk hip, ?_, ?_⟩
    · by_cases hmem : member.subnet_id ∈ sIdsOfOtherMembers pool member
      · rw [if_pos hmem, if_pos (hcond.mpr hmem)]
        simp [isDetachOp]
      · rw [if_neg hmem, if_neg (fun hx => hmem (hcond.mp hx))]
        simp [isDetachOp]
    · by_cases hmem : member.subnet_id ∈ sIdsOfOtherMembers pool member
      · rw [if_pos hmem]
        simp [isAttachOp]
      · rw [if_neg hmem]
        simp [isAttachOp]

/-- Witness for C1 at a concrete input: member `m1` created and deleted in a
pool where sibling `m2` shares subnet `S1`, so no attach and no detach is
issued. -/
theorem c1_member_segment_refcount_witness :
    (∃ ops, memberCreate netOf stOne poolP12 memberM1 = some (ops, Completion.success false) ∧
      ops.filter isAttachOp = [] ∧ ops.filter isDetachOp = []) ∧
    (∃ ops, memberDelete netOf stOne poolP12 memberM1 = some (ops, Completion.success true) ∧
      ops.filter isDetachOp = [] ∧ ops.filter isAttachOp = []) := by
  obtain ⟨⟨ops1, h1, h2, h3⟩, hdel⟩ :=
    c1_member_segment_refcount netOf stOne poolP12 memberM1 lbRowL1 sFieldM1
      (by decide) (by decide) (by decide)
  obtain ⟨ops2, h4, h5, h6⟩ := hdel (by decide)
  refine ⟨⟨ops1, h1, ?_, h3⟩, ⟨ops2, h4, ?_, h6⟩⟩
  · rw [h2, if_pos (by decide)]
  · rw [h5, if_pos (by decide)]

/-- C7: a native-protocol member create on an existing forwarding record leaves
the stored endpoint sequence for the VIP socket equal to the previous sequence
with the member's `address:port` appended at the end, preserves every other
VIP entry, and reports success; a native-protocol member delete whose endpoint
is present leaves the stored sequence equal to the previous one with the first
occurrence of that endpoint removed, preserves every other VIP entry, and
reports success. -/
theorem c7_member_endpoint_update (getNetwork : Str → Str) (st : NBState)
    (pool : Pool) (member : Member) (lb : OvnLB) (field : Str)
    (hp : pool.protocol ∈ ovn_native_protocols)
    (hf : findOvnLb st.lbs pool.listener.id = some lb)
    (hk : lookupVip lb.vips (poolVip pool) = some field)
    (hipc : ',' ∉ memberIp member)
    (hipn : memberIp member ≠ []) :
    (∃ ops, memberCreate getNetwork st pool member = some (ops, Completion.success false) ∧
      storedEndpoints (applyOps st ops) pool.listener.id (poolVip pool) =
        storedEndpoints st pool.listener.id (poolVip pool) ++ [memberIp member] ∧
      ∀ v2, v2 ≠ poolVip pool →
        storedField (applyOps st ops) pool.listener.id v2 =
          storedField st pool.listener.id v2) ∧
    (memberIp member ∈ splitOnComma field →
     (∀ e ∈ splitOnComma field, e ≠ []) →
      ∃ ops, memberDelete getNetwork st pool member = some (ops, Completion.success true) ∧
        storedEndpoints (applyOps st ops) pool.listener.id (poolVip pool) =
          removeFirst (storedEndpoints st pool.listener.id (poolVip pool))
            (memberIp member) ∧
        ∀ v2, v2 ≠ poolVip pool →
          storedField (applyOps st ops) pool.listener.id v2 =
            storedField st pool.listener.id v2) := by
  have hbefore : storedEndpoints st pool.listener.id (poolVip pool) =
      decodeVipsField field := by
    unfold storedEndpoints
    rw [storedField_of_find hf, hk]
  constructor
  · refine ⟨_, memberCreate_eq getNetwork st pool member lb field hp hf hk, ?_, ?_⟩
    · have hafter := storedField_after_upsert st pool.listener.id (poolVip pool)
        (decodeVipsField field ++ [memberIp member]) lb
        (if member.subnet_id ∈ sIdsOfOtherMembers pool member then []
         else [StoreOp.lsGet (segName (getNetwork member.subnet_id)),
               StoreOp.lsLbAdd (segName (getNetwork member.subnet_id)) lb.name])
        hf (by split <;> simp [touchesLbs]) (poolVip pool)
      rw [hbefore]
      unfold storedEndpoints
      rw [hafter, lookupVip_setVip_self]
      exact decodeVipsField_encodeIps_append (decodeVipsField field) (memberIp member)
        (decodeVipsField_no_comma_mem field) hipc hipn
    · intro v2 hv2
      have hafter := storedField_after_upsert st pool.listener.id (poolVip pool)
        (decodeVipsField field ++ [memberIp member]) lb
        (if member.subnet_id ∈ sIdsOfOtherMembers pool member then []
         else [StoreOp.lsGet (segName (getNetwork member.subnet_id)),
               StoreOp.lsLbAdd (segName (getNetwork member.subnet_id)) lb.name])
        hf (by split <;> simp [touchesLbs]) v2
      rw [hafter, lookupVip_setVip_other lb.vips (poolVip pool) _ v2 hv2,
        storedField_of_find hf]
  · intro hip hne
    have hfield : field ≠ [] := by
      intro hfe
      rw [hfe] at hip
      have : memberIp member = [] := by
        have h2 : splitOnComma ([] : Str) = [[]] := rfl
        rw [h2] at hip
        exact List.mem_singleton.mp hip
      exact hipn this
    have hcur : decodeVipsField field = splitOnComma field := by
      unfold decodeVipsField
      rw [if_neg hfield]
    refine ⟨_, memberDelete_eq getNetwork st pool member lb field hp hf hk hip, ?_, ?_⟩
    · have hafter := storedField_after_upsert st pool.listener.id (poolVip pool)
        (removeFirst (splitOnComma field) (memberIp member)) lb
        (if member.subnet_id ∈ sIdsOfOtherMembers pool member then []
         else [StoreOp.lsGet (segName (getNetwork member.subnet_id)),
               StoreOp.lsLbDel (segName (getNetwork member.subnet_id)) lb.name])
        hf (by split <;> simp [touchesLbs]) (poolVip pool)
      rw [hbefore, hcur]
      unfold storedEndpoints
      rw [hafter, lookupVip_setVip_self]
      exact decodeVipsField_encodeIps _
        (fun e he => ⟨hne e (mem_removeFirst he),
          splitOnComma_no_comma_mem field e (mem_removeFirst he)⟩)
    · intro v2 hv2
      have hafter := storedField_after_upsert st pool.listener.id (poolVip pool)
        (removeFirst (splitOnComma field) (memberIp member)) lb
        (if member.subnet_id ∈ sIdsOfOtherMembers pool member then []
         else [StoreOp.lsGet (segName (getNetwork member.subnet_id)),
               StoreOp.lsLbDel (segName (getNetwork member.subnet_id)) lb.name])
        hf (by split <;> simp [touchesLbs]) v2
      rw [hafter, lookupVip_setVip_other lb.vips (poolVip pool) _ v2 hv2,
        storedField_of_find hf]

/-- Witness for C7 at a concrete input: creating `m2` appends its endpoint to
the stored sequence; deleting `m1` removes its endpoint. -/
theorem c7_member_endpoint_update_witness :
    (∃ ops, memberCreate netOf stOne poolP12 memberM2 = some (ops, Completion.success false) ∧
      storedEndpoints (applyOps stOne ops) poolP12.listener.id (poolVip poolP12) =
        storedEndpoints stOne poolP12.listener.id (poolVip poolP12) ++ [memberIp memberM2] ∧
      ∀ v2, v2 ≠ poolVip poolP12 →
        storedField (applyOps stOne ops) poolP12.listener.id v2 =
          storedField stOne poolP12.listener.id v2) ∧
    (∃ ops, memberDelete netOf stOne poolP12 memberM1 = some (ops, Completion.success true) ∧
      storedEndpoints (applyOps stOne ops) poolP12.listener.id (poolVip poolP12) =
        removeFirst (storedEndpoints stOne poolP12.listener.id (poolVip poolP12))
          (memberIp memberM1) ∧
      ∀ v2, v2 ≠ poolVip poolP12 →
        storedField (applyOps stOne ops) poolP12.listener.id v2 =
          storedField stOne poolP12.listener.id v2) := by
  obtain ⟨hcre, -⟩ :=
    c7_member_endpoint_update netOf stOne poolP12 memberM2 lbRowL1 sFieldM1
      (by decide) (by decide) (by decide) (by decide) (by decide)
  obtain ⟨-, hdel⟩ :=
    c7_member_endpoint_update netOf stOne poolP12 memberM1 lbRowL1 sFieldM1
      (by decide) (by decide) (by decide) (by decide) (by decide)
  exact ⟨hcre, hdel (by decide) (by decide)⟩

/-- C8: a native-protocol listener create computes the VIP socket as the load
balancer's VIP address joined with `:` and the listener port, upserts the
record named by the listener id with an empty endpoint set for that socket,
attaches the segment of the load balancer's own VIP subnet, and reports
success; applied to an empty store, the resulting record holds the empty
endpoint set for the socket and the segment is attached. -/
theorem c8_listener_create (getNetwork : Str → Str) (listener : Listener)
    (hp : listener.protocol ∈ ovn_native_protocols) :
    ∃ ops, listenerCreate getNetwork listener = some (ops, Completion.success false) ∧
      ops = [StoreOp.upsertVip listener.id (listenerVip listener) [],
             StoreOp.lsGet (segName (getNetwork listener.loadbalancer.vip_subnet_id)),
             StoreOp.lsLbAdd (segName (getNetwork listener.loadbalancer.vip_subnet_id))
               listener.id] ∧
      storedField (applyOps stEmpty ops) listener.id (listenerVip listener) = some [] ∧
      storedEndpoints (applyOps stEmpty ops) listener.id (listenerVip listener) = [] ∧
      (segName (getNetwork listener.loadbalancer.vip_subnet_id), listener.id) ∈
        (applyOps stEmpty ops).attachments := by
  refine ⟨_, ?_, rfl, ?_, ?_, ?_⟩
  · rw [listenerCreate, if_neg (not_not_intro hp)]
  · simp [applyOps, applyOp, stEmpty, storedField, findOvnLb, lookupVip, List.filter,
      encodeIps]
  · simp [applyOps, applyOp, stEmpty, storedField, storedEndpoints, findOvnLb,
      lookupVip, List.filter, encodeIps, decodeVipsField]
  · simp [applyOps, applyOp, stEmpty]

/-- Witness for C8 at the concrete listener `L1` (TCP, port 80). -/
theorem c8_listener_create_witness :
    listenerL1.protocol ∈ ovn_native_protocols ∧
    (∃ ops, listenerCreate netOf listenerL1 = some (ops, Completion.success false) ∧
      ops = [StoreOp.upsertVip listenerL1.id (listenerVip listenerL1) [],
             StoreOp.lsGet (segName (netOf listenerL1.loadbalancer.vip_subnet_id)),
             StoreOp.lsLbAdd (segName (netOf listenerL1.loadbalancer.vip_subnet_id))
               listenerL1.id] ∧
      storedField (applyOps stEmpty ops) listenerL1.id (listenerVip listenerL1) = some [] ∧
      storedEndpoints (applyOps stEmpty ops) listenerL1.id (listenerVip listenerL1) = [] ∧
      (segName (netOf listenerL1.loadbalancer.vip_subnet_id), listenerL1.id) ∈
        (applyOps stEmpty ops).attachments) :=
  ⟨by decide, c8_listener_create netOf listenerL1 (by decide)⟩

/-- C4 evaluation: with no forwarding record present, listener delete and
member create report a failed completion, but member delete returns silently
without reporting any completion — the code slip behind claim C4 (the source
comment at `driver.py` line 263 says to raise instead). -/
theorem c4_missing_record_eval :
    listenerDelete netOf stEmpty listenerL1 = some ([StoreOp.dbFind sL1], Completion.failed) ∧
    memberCreate netOf stEmpty poolP1 memberM1 = some ([StoreOp.dbFind sL1], Completion.failed) ∧
    memberDelete netOf stEmpty poolP1 memberM1 = some ([StoreOp.dbFind sL1], Completion.silent) := by
  decide

/-- C6 evaluation: a native member delete whose endpoint is absent from the
decoded endpoint set returns silently, reporting neither success nor failure
(the source comment at `driver.py` line 268 says to raise instead). -/
theorem c6_endpoint_absent_eval :
    memberDelete netOf stOne poolP12 memberM2 ≠ some ([StoreOp.dbFind sL1], Completion.failed) ∧
    memberDelete netOf stOne poolP12 memberM2 = some ([StoreOp.dbFind sL1], Completion.silent) := by
  decide

/-- C3 counterexample: with two store rows named `L1`, `find_ovn_lb` returns
`none` — the same value as for no match — instead of failing loudly. -/
theorem c3_find_duplicates_counterexample :
    stDup.lbs.filter (fun lb => decide (lb.name = sL1)) = [lbRowL1, lbRowL1] ∧
    findOvnLb stDup.lbs sL1 = none := by decide

/-- C3 (amended): whenever the name query matches two or more rows,
`find_ovn_lb` returns no record — silently indistinguishable from an absent
record — and never returns one of the matches. -/
theorem c3_find_duplicates (lbs : List OvnLB) (listener_id : Str)
    (h : 2 ≤ (lbs.filter (fun lb => decide (lb.name = listener_id))).length) :
    findOvnLb lbs listener_id = none := by
  unfold findOvnLb
  cases hf : lbs.filter (fun lb => decide (lb.name = listener_id)) with
  | nil => rfl
  | cons x t =>
    cases t with
    | nil => rw [hf] at h; simp at h
    | cons y t2 => rfl

/-- Witness for the amended C3 at the concrete duplicated store. -/
theorem c3_find_duplicates_witness :
    2 ≤ (stDup.lbs.filter (fun lb => decide (lb.name = sL1))).length ∧
    findOvnLb stDup.lbs sL1 = none :=
  ⟨by decide, c3_find_duplicates stDup.lbs sL1 (by decide)⟩

/-- C2 counterexample: the singleton sequence holding the empty string is
comma-free, yet the guarded decode of its encoding yields the empty sequence;
and the bare split used by member delete maps the encoding of the empty
sequence to one empty endpoint rather than back to the empty sequence. -/
theorem c2_roundtrip_counterexample :
    (∀ e ∈ [([] : Str)], ',' ∉ e) ∧
    decodeVipsField (encodeIps [([] : Str)]) ≠ [([] : Str)] ∧
    splitOnComma (encodeIps ([] : List Str)) ≠ ([] : List Str) := by decide

/-- C2 (amended): for every sequence of non-empty endpoint strings with no
embedded comma, the guarded decode used by member create inverts the encoding,
and the bare split used by member delete inverts it for non-empty sequences. -/
theorem c2_roundtrip (s : List Str) (h : ∀ e ∈ s, e ≠ [] ∧ ',' ∉ e) :
    decodeVipsField (encodeIps s) = s ∧
    (s ≠ [] → splitOnComma (encodeIps s) = s) :=
  ⟨decodeVipsField_encodeIps s h,
   fun hne => splitOnComma_encodeIps s hne (fun e he => (h e he).2)⟩

/-- Witness for the amended C2 at a concrete two-endpoint sequence. -/
theorem c2_roundtrip_witness :
    (∀ e ∈ [sFieldM1, sVipSock], e ≠ [] ∧ ',' ∉ e) ∧
    (decodeVipsField (encodeIps [sFieldM1, sVipSock]) = [sFieldM1, sVipSock] ∧
     ([sFieldM1, sVipSock] ≠ ([] : List Str) →
       splitOnComma (encodeIps [sFieldM1, sVipSock]) = [sFieldM1, sVipSock])) :=
  ⟨by decide, c2_roundtrip [sFieldM1, sVipSock] (by decide)⟩

/-- C9 counterexample: when the record exists but holds no entry for the VIP
socket, member create raises a `KeyError` (no completion at all), and the bare
split of the empty string used by member delete yields one empty endpoint. -/
theorem c9_decode_totality_counterexample :
    memberCreate netOf stNoKey poolP1 memberM1 = none ∧
    splitOnComma ([] : Str) = [[]] := by decide

/-- C9 (amended): decoding is not total — both member handlers raise on a
socket key absent from the record's `vips` (modelled as `none`); only member
create's guarded decode maps the empty string to the empty sequence, while the
bare split used by member delete maps it to one empty endpoint. -/
theorem c9_decode_totality (getNetwork : Str → Str) (st : NBState) (pool : Pool)
    (member : Member) (lb : OvnLB)
    (hp : pool.protocol ∈ ovn_native_protocols)
    (hf : findOvnLb st.lbs pool.listener.id = some lb)
    (hk : lookupVip lb.vips (poolVip pool) = none) :
    memberCreate getNetwork st pool member = none ∧
    memberDelete getNetwork st pool member = none ∧
    decodeVipsField [] = [] ∧
    splitOnComma [] = [[]] := by
  refine ⟨?_, ?_, rfl, rfl⟩
  · simp only [memberCreate, if_neg (not_not_intro hp), hf, hk]
  · simp only [memberDelete, if_neg (not_not_intro hp), hf, hk]

/-- Witness for the amended C9 at the concrete keyless record. -/
theorem c9_decode_totality_witness :
    (poolP1.protocol ∈ ovn_native_protocols ∧
     findOvnLb stNoKey.lbs poolP1.listener.id = some lbRowNoKey ∧
     lookupVip lbRowNoKey.vips (poolVip poolP1) = none) ∧
    (memberCreate netOf stNoKey poolP1 memberM1 = none ∧
     memberDelete netOf stNoKey poolP1 memberM1 = none ∧
     decodeVipsField [] = [] ∧
     splitOnComma [] = [[]]) :=
  ⟨⟨by decide, by decide, by decide⟩,
   c9_decode_totality netOf stNoKey poolP1 memberM1 lbRowNoKey
     (by decide) (by decide) (by decide)⟩

/-- C5 counterexample: non-native delete events report a successful completion,
not a failed one, and a non-native pool create crashes on an undefined name
(no completion at all), while no store operation is issued. -/
theorem c5_protocol_gating_counterexample :
    memberDelete netOf stEmpty poolUdp memberM1 = some ([], Completion.success true) ∧
    listenerDelete netOf stEmpty listenerUdp = some ([], Completion.success true) ∧
    poolCreate poolUdp = none := by decide

/-- C5 (amended): for non-native protocols no store operation is invoked in
either variant; in the native-only variant, listener and member create and
update report a failed completion, the three delete handlers report a
successful completion (pool delete never checks the protocol at all), and
pool create and update — which gate on the pool's listener's protocol — crash
on an undefined name, reporting nothing; in the fallback-capable variant all
nine handlers delegate to the base implementation. -/
theorem c5_protocol_gating (getNetwork : Str → Str) (st : NBState)
    (listener : Listener) (pool : Pool) (member : Member)
    (hl : listener.protocol ∉ ovn_native_protocols)
    (hpl : pool.listener.protocol ∉ ovn_native_protocols)
    (hp : pool.protocol ∉ ovn_native_protocols) :
    (listenerCreate getNetwork listener = some ([], Completion.failed) ∧
     listenerUpdate listener = some ([], Completion.failed) ∧
     listenerDelete getNetwork st listener = some ([], Completion.success true)) ∧
    (poolCreate pool = none ∧
     poolUpdate pool = none ∧
     poolDelete pool = some ([], Completion.success true)) ∧
    (memberCreate getNetwork st pool member = some ([], Completion.failed) ∧
     memberUpdate pool member = some ([], Completion.failed) ∧
     memberDelete getNetwork st pool member = some ([], Completion.success true)) ∧
    (octListenerCreate listener = some ([], Completion.delegated) ∧
     octListenerUpdate listener = some ([], Completion.delegated) ∧
     octListenerDelete listener = some ([], Completion.delegated)) ∧
    (octPoolCreate pool = some ([], Completion.delegated) ∧
     octPoolUpdate pool = some ([], Completion.delegated) ∧
     octPoolDelete pool = some ([], Completion.delegated)) ∧
    (octMemberCreate pool member = some ([], Completion.delegated) ∧
     octMemberUpdate pool member = some ([], Completion.delegated) ∧
     octMemberDelete pool member = some ([], Completion.delegated)) := by
  refine ⟨⟨?_, ?_, ?_⟩, ⟨?_, ?_, rfl⟩, ⟨?_, ?_, ?_⟩, ⟨?_, ?_, ?_⟩, ⟨?_, ?_, ?_⟩,
    ⟨?_, ?_, ?_⟩⟩
  · rw [listenerCreate, if_pos hl]
  · rw [listenerUpdate, if_pos hl]
  · rw [listenerDelete, if_pos hl]
  · rw [poolCreate, if_pos hpl]
  · rw [poolUpdate, if_pos hpl]
  · rw [memberCreate, if_pos hp]
  · rw [memberUpdate, if_pos hp]
  · rw [memberDelete, if_pos hp]
  · rw [octListenerCreate, if_pos hl]
  · rw [octListenerUpdate, if_pos hl]
  · rw [octListenerDelete, if_pos hl]
  · rw [octPoolCreate, if_pos hp]
  · rw [octPoolUpdate, if_pos hp]
  · rw [octPoolDelete, if_pos hp]
  · rw [octMemberCreate, if_pos hp]
  · rw [octMemberUpdate, if_pos hp]
  · rw [octMemberDelete, if_pos hp]

/-- Witness for the amended C5 at concrete UDP entities. -/
theorem c5_protocol_gating_witness :
    (listenerUdp.protocol ∉ ovn_native_protocols ∧
     poolUdp.listener.protocol ∉ ovn_native_protocols ∧
     poolUdp.protocol ∉ ovn_native_protocols) ∧
    ((listenerCreate netOf listenerUdp = some ([], Completion.failed) ∧
      listenerUpdate listenerUdp = some ([], Completion.failed) ∧
      listenerDelete netOf stEmpty listenerUdp = some ([], Completion.success true)) ∧
     (poolCreate poolUdp = none ∧
      poolUpdate poolUdp = none ∧
      poolDelete poolUdp = some ([], Completion.success true)) ∧
     (memberCreate netOf stEmpty poolUdp memberM1 = some ([], Completion.failed) ∧
      memberUpdate poolUdp memberM1 = some ([], Completion.failed) ∧
      memberDelete netOf stEmpty poolUdp memberM1 = some ([], Completion.success true)) ∧
     (octListenerCreate listenerUdp = some ([], Completion.delegated) ∧
      octListenerUpdate listenerUdp = some ([], Completion.delegated) ∧
      octListenerDelete listenerUdp = some ([], Completion.delegated)) ∧
     (octPoolCreate poolUdp = some ([], Completion.delegated) ∧
      octPoolUpdate poolUdp = some ([], Completion.delegated) ∧
      octPoolDelete poolUdp = some ([], Completion.delegated)) ∧
     (octMemberCreate poolUdp memberM1 = some ([], Completion.delegated) ∧
      octMemberUpdate poolUdp memberM1 = some ([], Completion.delegated) ∧
      octMemberDelete poolUdp memberM1 = some ([], Completion.delegated))) :=
  ⟨⟨by decide, by decide, by decide⟩,
   c5_protocol_gating netOf stEmpty listenerUdp poolUdp memberM1
     (by decide) (by decide) (by decide)⟩

/-- C10 counterexample: on a concrete native member create the native-only
variant issues the VIP update and reports success, while the fallback-capable
variant raises before any store operation — the variants are not equivalent. -/
theorem c10_variant_divergence_counterexample :
    octMemberCreate poolP1 memberM2 = none ∧
    memberCreate netOf stOne poolP1 memberM2 ≠ octMemberCreate poolP1 memberM2 := by
  decide

/-- C10 (amended): the two variants are not behaviourally equivalent on native
member creates: the native-only variant issues the VIP endpoint update (and
the conditional attach) and reports success, while the fallback-capable
variant raises a type error before any store operation — its socket
concatenates the raw port number and its record lookup dereferences an
attribute its driver object lacks. -/
theorem c10_variant_divergence (getNetwork : Str → Str) (st : NBState)
    (pool : Pool) (member : Member) (lb : OvnLB) (field : Str)
    (hp : pool.protocol ∈ ovn_native_protocols)
    (hf : findOvnLb st.lbs pool.listener.id = some lb)
    (hk : lookupVip lb.vips (poolVip pool) = some field) :
    octMemberCreate pool member = none ∧
    (∃ ops, memberCreate getNetwork st pool member = some (ops, Completion.success false) ∧
      StoreOp.upsertVip lb.name (poolVip pool)
        (decodeVipsField field ++ [memberIp member]) ∈ ops) ∧
    memberCreate getNetwork st pool member ≠ octMemberCreate pool member := by
  have hoct : octMemberCreate pool member = none := by
    rw [octMemberCreate, if_neg (not_not_intro hp)]
  have hovn := memberCreate_eq getNetwork st pool member lb field hp hf hk
  refine ⟨hoct, ⟨_, hovn, ?_⟩, ?_⟩
  · simp
  · rw [hovn, hoct]
    simp

/-- Witness for the amended C10 at a concrete native member create. -/
theorem c10_variant_divergence_witness :
    (poolP1.protocol ∈ ovn_native_protocols ∧
     findOvnLb stOne.lbs poolP1.listener.id = some lbRowL1 ∧
     lookupVip lbRowL1.vips (poolVip poolP1) = some sFieldM1) ∧
    (octMemberCreate poolP1 memberM2 = none ∧
     (∃ ops, memberCreate netOf stOne poolP1 memberM2 = some (ops, Completion.success false) ∧
       StoreOp.upsertVip lbRowL1.name (poolVip poolP1)
         (decodeVipsField sFieldM1 ++ [memberIp memberM2]) ∈ ops) ∧
     memberCreate netOf stOne poolP1 memberM2 ≠ octMemberCreate poolP1 memberM2) :=
  ⟨⟨by decide, by decide, by decide⟩,
   c10_variant_divergence netOf stOne poolP1 memberM2 lbRowL1 sFieldM1
     (by decide) (by decide) (by decide)⟩
